import Mathlib

/-!
Verification development for the spytools process-inspection engine.

The Rust sources embedded here are `src/process/process_info.rs`
(`ProcessInfo::new`, `ProcessInfo::get_symbol`, `get_windows_symbols`,
`is_lib`, `is_bin`), `src/process/python_process_type.rs` and
`src/process/ruby_process_type.rs` (`library_regex`, `is_framework`,
`windows_symbols`).

External collaborators (the binary parser, the memory-map source, the
dyld introspection, the Windows secondary symbol source) are modelled as
oracle arguments: the construction algorithm only consumes their results.
Machine integers (`u64`) are modelled as `Nat` with explicit wrap-around
`% 2^64` where the Rust arithmetic can wrap.
-/

/-- Modulus of the Rust `u64` type. -/
def U64MOD : Nat := 2 ^ 64

/-- Wrapping `u64` subtraction `a - b` (release-mode Rust semantics),
for operands already reduced below `U64MOD`. -/
def u64sub (a b : Nat) : Nat := (a + U64MOD - b) % U64MOD

/-- Wrapping `u64` addition. -/
def u64add (a b : Nat) : Nat := (a + b) % U64MOD

/-- One mapped memory region of the target process (proc_maps `MapRange`):
start address, size, permission bits, optional backing file path. -/
structure MapRange where
  start : Nat
  size : Nat
  is_read : Bool
  is_write : Bool
  is_exec : Bool
  filename : Option String
deriving Repr, DecidableEq

/-- A symbol table: association list from symbol name to `u64` virtual
address, first binding wins on lookup (models `HashMap<String, u64>`
with distinct keys; inserts that overwrite are modelled by prepending). -/
def SymTable : Type := List (String × Nat)

/-- Lookup in a symbol table (models `HashMap::get`). -/
def symLookup : List (String × Nat) → String → Option Nat
  | [], _ => none
  | (k, v) :: rest, s => if k == s then some v else symLookup rest s

/-- Parsed binary metadata (`binary_parser::BinaryInfo`): the symbol
table plus the BSS region descriptor. A `bss_addr` of `0` is the
parser's sentinel for a missing BSS section. -/
structure BinaryInfo where
  symbols : List (String × Nat)
  bss_addr : Nat
  bss_size : Nat
deriving Repr, DecidableEq

/-- The assembled process snapshot (`ProcessInfo`). The Linux-only
`dockerized` flag is carried unconditionally; on other platforms it is
simply `false`. -/
structure ProcessInfo where
  binary : Option BinaryInfo
  library : Option BinaryInfo
  maps : List MapRange
  path : String
  dockerized : Bool
deriving Repr, DecidableEq

/-- `ProcessInfo::get_symbol`: look in the main binary's table first,
then in the library's table; `none` when neither contains the name. -/
def ProcessInfo.get_symbol (p : ProcessInfo) (symbol : String) : Option Nat :=
  let fromBinary :=
    match p.binary with
    | some pb => symLookup pb.symbols symbol
    | none => none
  match fromBinary with
  | some addr => some addr
  | none =>
    match p.library with
    | some lb => symLookup lb.symbols symbol
    | none => none

/-- Written from the spec's words for section 4.4 (refinement target):
look up the name first in the main-binary symbol table (if present),
then in the library symbol table (if present); return the first match's
address, or absence if neither table contains it. -/
def getSymbolSpec (p : ProcessInfo) (name : String) : Option Nat :=
  (Option.bind p.binary (fun b => symLookup b.symbols name)).orElse
    (fun _ => Option.bind p.library (fun l => symLookup l.symbols name))

/-- Construction-time error kinds (the Rust code uses `anyhow` string
errors; the spec names the kinds in section 7). `dyldQueryFailure`
covers a propagated failure of the macOS dyld fallback query or parse. -/
inductive ProcError where
  | processUnavailable
  | noMemoryRegions
  | mainBinaryParseFailure
  | libraryParseFailure
  | dyldQueryFailure
deriving Repr, DecidableEq

/-- The `is_bin` comparator of `ProcessInfo::new` lines 40-44: plain
path equality, except on Windows where both sides compare lower-cased
(`filename` is already lower-cased by the caller). -/
def mkIsBin (windowsNormalize : Bool) (filename : String) : String → Bool :=
  fun pathname =>
    if windowsNormalize then pathname.toLower == filename else pathname == filename

/-- The binary-region predicate applied inside `maps.iter().find` in
`ProcessInfo::new`: the region has a backing file whose path satisfies
`is_bin` and the region is executable. (The Rust `pathname.to_str()`
UTF-8 check is a no-op here since Lean strings are always valid.) -/
def binMapPred (isBin : String → Bool) (m : MapRange) : Bool :=
  match m.filename with
  | some pathname => isBin pathname && m.is_exec
  | none => false

/-- The `maps.iter().find` scan for the main-binary region. -/
def findBinaryMap (maps : List MapRange) (isBin : String → Bool) : Option MapRange :=
  maps.find? (binMapPred isBin)

/-- Binary region selection with the fallback of `ProcessInfo::new`
lines 62-82: first matching region; otherwise the first region of the
list (a logged warning in Rust); otherwise the no-memory-regions error. -/
def selectBinaryMap (maps : List MapRange) (isBin : String → Bool) :
    Except ProcError MapRange :=
  match findBinaryMap maps isBin with
  | some m => Except.ok m
  | none =>
    match maps with
    | [] => Except.error ProcError.noMemoryRegions
    | m :: _ => Except.ok m

/-- The library-region predicate of `ProcessInfo::new` lines 130-138:
backing file matches `is_lib`, and the permission checked is `is_read`
on Windows (`useRead = true`) and `is_exec` elsewhere. -/
def findLibraryMap (maps : List MapRange) (isLibP : String → Bool) (useRead : Bool) :
    Option MapRange :=
  maps.find? (fun m =>
    match m.filename with
    | some path => isLibP path && (if useRead then m.is_read else m.is_exec)
    | none => false)

/-- The reconciliation step of `ProcessInfo::new` lines 213-217: with no
library, a main-binary parse failure is fatal; with a library, the
binary result is demoted to an `Option`. -/
def reconcileBinary (binaryRes : Except Unit BinaryInfo) (library : Option BinaryInfo) :
    Except ProcError (Option BinaryInfo) :=
  match library with
  | none =>
    match binaryRes with
    | Except.error _ => Except.error ProcError.mainBinaryParseFailure
    | Except.ok b => Except.ok (some b)
  | some _ => Except.ok binaryRes.toOption

/-- Library resolution of `ProcessInfo::new` lines 129-211: scan the
memory map for a region backed by a library file and parse it (a parse
failure here is always fatal); when that yields nothing, fall back to
the macOS dyld image scan (`dyld`, whose own query/parse failures are
also fatal; `Except.ok none` on other platforms or when no framework
image matches). -/
def resolveLibrary
    (maps : List MapRange)
    (parse : String → Nat → Nat → Bool → Except Unit BinaryInfo)
    (isLibP : String → Bool)
    (useRead : Bool)
    (dyld : Except Unit (Option BinaryInfo)) : Except ProcError (Option BinaryInfo) :=
  let viaMap : Except ProcError (Option BinaryInfo) :=
    match findLibraryMap maps isLibP useRead with
    | some m =>
      match m.filename with
      | some f =>
        match parse f m.start m.size false with
        | Except.error _ => Except.error ProcError.libraryParseFailure
        | Except.ok l => Except.ok (some l)
      | none => Except.ok none
    | none => Except.ok none
  match viaMap with
  | Except.error e => Except.error e
  | Except.ok (some l) => Except.ok (some l)
  | Except.ok none =>
    match dyld with
    | Except.error _ => Except.error ProcError.dyldQueryFailure
    | Except.ok r => Except.ok r

/-- `ProcessInfo::new`, with the external collaborators passed as
oracles: `exeResult` is `process.exe()`, `parse` is `parse_binary`
composed with the per-platform main-binary post-processing, `dyld` is
the outcome of the macOS dyld fallback (`Except.ok none` on other
platforms or when no framework image matches), `dockerizedResult` is
`is_dockerized` (`none` models its error, absorbed by `unwrap_or(false)`),
and `windowsNormalize` selects the case-folding `is_bin` comparator. -/
def processInfoNew
    (exeResult : Option String)
    (maps : List MapRange)
    (parse : String → Nat → Nat → Bool → Except Unit BinaryInfo)
    (isLibP : String → Bool)
    (useReadPerm : Bool)
    (dyld : Except Unit (Option BinaryInfo))
    (dockerizedResult : Option Bool)
    (windowsNormalize : Bool) : Except ProcError ProcessInfo :=
  match exeResult with
  | none => Except.error ProcError.processUnavailable
  | some filename0 =>
    let filename := if windowsNormalize then filename0.toLower else filename0
    match selectBinaryMap maps (mkIsBin windowsNormalize filename) with
    | Except.error e => Except.error e
    | Except.ok bmap =>
      match resolveLibrary maps parse isLibP useReadPerm dyld with
      | Except.error e => Except.error e
      | Except.ok library =>
        match reconcileBinary (parse filename bmap.start bmap.size true) library with
        | Except.error e => Except.error e
        | Except.ok binary =>
          Except.ok
            { binary := binary
              library := library
              maps := maps
              path := filename
              dockerized := dockerizedResult.getD false }

/-- The macOS main-binary correction of `ProcessInfo::new` lines
107-119: read the anchor symbol by `pb.symbols["_mh_execute_header"]`
(an unguarded index - `none` here models the Rust panic when the key is
missing), subtract `offset = anchor - map.start` from every symbol
address, and from `bss_addr` only when `bss_addr != 0`. -/
def macosCorrect (pb : BinaryInfo) (mapStart : Nat) : Option BinaryInfo :=
  match symLookup pb.symbols "_mh_execute_header" with
  | none => none
  | some anchor =>
    let offset := u64sub anchor mapStart
    some
      { symbols := pb.symbols.map (fun kv => (kv.1, u64sub kv.2 offset))
        bss_addr := if pb.bss_addr ≠ 0 then u64sub pb.bss_addr offset else pb.bss_addr
        bss_size := pb.bss_size }

/-- The per-symbol address computation of `get_windows_symbols` lines
279-287: `offset + addr - module.base` when the reported base is zero,
else `offset + addr - base`, in wrapping `u64` arithmetic. -/
def resolveWinAddr (offset moduleBase base addr : Nat) : Nat :=
  if base == 0 then u64sub (u64add offset addr) moduleBase
  else u64sub (u64add offset addr) base

/-- `get_windows_symbols`: for each required symbol name, query the
secondary source (`resolve`, modelling `handler.address_from_name`;
`none` models a per-symbol failure, which is skipped) and insert the
resolved address. Insertion prepends, so with first-binding-wins lookup
the last insert wins, as for `HashMap::insert`. -/
def winStep (resolve : String → Option (Nat × Nat)) (moduleBase offset : Nat)
    (ret : List (String × Nat)) (s : String) : List (String × Nat) :=
  match resolve s with
  | some (base, addr) => (s, resolveWinAddr offset moduleBase base addr) :: ret
  | none => ret

/-- The loop body of `get_windows_symbols` as one fold. -/
def getWindowsSymbols (requiredSyms : List String)
    (resolve : String → Option (Nat × Nat)) (moduleBase offset : Nat) :
    List (String × Nat) :=
  requiredSyms.foldl (winStep resolve moduleBase offset) []

/-- `PythonProcessType::windows_symbols`. -/
def pythonWindowsSymbols : List String :=
  ["_PyThreadState_Current", "interp_head", "_PyRuntime"]

/-- `RubyProcessType::windows_symbols`. -/
def rubyWindowsSymbols : List String :=
  ["global_symbols", "ruby_global_symbols", "ruby_current_vm",
   "ruby_current_vm_ptr", "ruby_current_thread",
   "ruby_current_execution_context_ptr", "ruby_version"]

/-- `listStartsWith n l` : the char list `l` starts with `n`. -/
def listStartsWith : List Char → List Char → Bool
  | [], _ => true
  | _ :: _, [] => false
  | a :: as, b :: bs => a == b && listStartsWith as bs

/-- `listHasSub n l` : `n` occurs as a contiguous sublist of `l`
(models Rust `str::contains` on these ASCII inputs). -/
def listHasSub (n : List Char) : List Char → Bool
  | [] => n.isEmpty
  | b :: bs => listStartsWith n (b :: bs) || listHasSub n bs

/-- Substring test on strings. -/
def strHasSub (s n : String) : Bool := listHasSub n.toList s.toList

/-- ASCII lower-casing of one character (agrees with Rust
`str::to_lowercase` on the ASCII paths handled here). -/
def asciiLowerChar (c : Char) : Char :=
  if 'A' ≤ c ∧ c ≤ 'Z' then Char.ofNat (c.toNat + 32) else c

/-- ASCII lower-casing of a character list. -/
def asciiLower (l : List Char) : List Char := l.map asciiLowerChar

/-- All suffixes of a char list, longest first (the candidate match
starting points of an unanchored regex search). -/
def listSuffixes : List Char → List (List Char)
  | [] => [[]]
  | c :: cs => (c :: cs) :: listSuffixes cs

/-- Regular-expression abstract syntax covering exactly the constructs
used by the `library_regex` patterns of the two process types: literal
characters, `.` (any char), `\d`, `\d+`, `.*`, concatenation and
alternation; `r?` is `alt r eps`. -/
inductive RE where
  | eps
  | chr (c : Char)
  | anyc
  | digit
  | digits1
  | anystar
  | seq (a b : RE)
  | alt (a b : RE)
deriving Repr, DecidableEq

/-- `r?` -/
def RE.opt (r : RE) : RE := RE.alt r RE.eps

/-- Concatenation of the literal characters of `s`. -/
def strRE (s : String) : RE := s.toList.foldr (fun c r => RE.seq (RE.chr c) r) RE.eps

/-- The remainders left after `\\d+` consumes a nonempty digit prefix. -/
def digitsRem : List Char → List (List Char)
  | [] => []
  | x :: xs => if x.isDigit then xs :: digitsRem xs else []

/-- The remainders left after matching `r` against a prefix of `s`
(each element is `s` minus one possible matched prefix). -/
def reMatchPref : RE → List Char → List (List Char)
  | RE.eps, s => [s]
  | RE.chr c, s =>
    match s with
    | [] => []
    | x :: xs => if x == c then [xs] else []
  | RE.anyc, s =>
    match s with
    | [] => []
    | _ :: xs => [xs]
  | RE.digit, s =>
    match s with
    | [] => []
    | x :: xs => if x.isDigit then [xs] else []
  | RE.digits1, s => digitsRem s
  | RE.anystar, s => listSuffixes s
  | RE.seq a b, s => (reMatchPref a s).flatMap (fun s2 => reMatchPref b s2)
  | RE.alt a b, s => reMatchPref a s ++ reMatchPref b s

/-- Rust `Regex::is_match` for a pattern without `$`: some prefix of
some suffix matches. -/
def reSearch (r : RE) (s : String) : Bool :=
  (listSuffixes s.toList).any (fun t => !(reMatchPref r t).isEmpty)

/-- Rust `Regex::is_match` for a pattern ending in `$`: some suffix
matches entirely. -/
def reSearchEnd (r : RE) (s : String) : Bool :=
  (listSuffixes s.toList).any (fun t => (reMatchPref r t).any List.isEmpty)

/-- `(m|d|u)?`, the CPython build-flag suffix. -/
def pyFlagOpt : RE := RE.opt (RE.alt (RE.chr 'm') (RE.alt (RE.chr 'd') (RE.chr 'u')))

/-- `(dylib|so)` -/
def dylibOrSo : RE := RE.alt (strRE "dylib") (strRE "so")

/-- Linux/FreeBSD Python pattern `/libpython\d.\d\d?(m|d|u)?.so`. -/
def pythonLinuxRE : RE :=
  RE.seq (strRE "/libpython")
    (RE.seq RE.digit (RE.seq RE.anyc (RE.seq RE.digit (RE.seq (RE.opt RE.digit)
      (RE.seq pyFlagOpt (RE.seq RE.anyc (strRE "so")))))))

/-- macOS Python pattern `/libpython\d.\d\d?(m|d|u)?.(dylib|so)$`. -/
def pythonMacosRE : RE :=
  RE.seq (strRE "/libpython")
    (RE.seq RE.digit (RE.seq RE.anyc (RE.seq RE.digit (RE.seq (RE.opt RE.digit)
      (RE.seq pyFlagOpt (RE.seq RE.anyc dylibOrSo))))))

/-- Windows Python pattern `\\python\d\d\d?(m|d|u)?.dll$` (the
case-insensitive build is modelled by lower-casing the haystack). -/
def pythonWindowsRE : RE :=
  RE.seq (RE.chr '\\')
    (RE.seq (strRE "python")
      (RE.seq RE.digit (RE.seq RE.digit (RE.seq (RE.opt RE.digit)
        (RE.seq pyFlagOpt (RE.seq RE.anyc (strRE "dll")))))))

/-- Linux/FreeBSD Ruby pattern `/libruby\.so(\.\d+\.\d+(\.\d+)?)?`. -/
def rubyLinuxRE : RE :=
  RE.seq (strRE "/libruby.so")
    (RE.opt (RE.seq (RE.chr '.') (RE.seq RE.digits1
      (RE.seq (RE.chr '.') (RE.seq RE.digits1
        (RE.opt (RE.seq (RE.chr '.') RE.digits1)))))))

/-- macOS Ruby pattern `/libruby\.?\d\.\d\d?\.(dylib|so)$`. -/
def rubyMacosRE : RE :=
  RE.seq (strRE "/libruby")
    (RE.seq (RE.opt (RE.chr '.'))
      (RE.seq RE.digit (RE.seq (RE.chr '.') (RE.seq RE.digit
        (RE.seq (RE.opt RE.digit) (RE.seq (RE.chr '.') dylibOrSo))))))

/-- Windows Ruby pattern `\\.*ruby\d\d\d?\.dll(\.a)?$` (case-insensitive,
modelled by lower-casing the haystack). -/
def rubyWindowsRE : RE :=
  RE.seq (RE.chr '\\')
    (RE.seq RE.anystar
      (RE.seq (strRE "ruby")
        (RE.seq RE.digit (RE.seq RE.digit (RE.seq (RE.opt RE.digit)
          (RE.seq (RE.chr '.') (RE.seq (strRE "dll") (RE.opt (strRE ".a")))))))))

/-- `is_lib::<PythonProcessType>` on Linux/FreeBSD. -/
def pythonIsLibLinux (path : String) : Bool := reSearch pythonLinuxRE path

/-- `is_lib::<PythonProcessType>` on macOS. -/
def pythonIsLibMacos (path : String) : Bool := reSearchEnd pythonMacosRE path

/-- `is_lib::<PythonProcessType>` on Windows. -/
def pythonIsLibWindows (path : String) : Bool :=
  reSearchEnd pythonWindowsRE (String.mk (asciiLower path.toList))

/-- `is_lib::<RubyProcessType>` on Linux/FreeBSD. -/
def rubyIsLibLinux (path : String) : Bool := reSearch rubyLinuxRE path

/-- `is_lib::<RubyProcessType>` on macOS. -/
def rubyIsLibMacos (path : String) : Bool := reSearchEnd rubyMacosRE path

/-- `is_lib::<RubyProcessType>` on Windows. -/
def rubyIsLibWindows (path : String) : Bool :=
  reSearchEnd rubyWindowsRE (String.mk (asciiLower path.toList))

/-- The final component of a slash-separated path (inputs carry no
trailing slash); Rust `Path::ends_with(c)` for a single-component `c`
compares this component for equality. -/
def lastPathComponent (s : String) : List Char :=
  (s.toList.reverse.takeWhile (fun c => c != '/')).reverse

/-- `PythonProcessType::is_framework`:
`path.ends_with("Python") && !path.contains("Python.app")`. -/
def pythonIsFramework (path : String) : Bool :=
  lastPathComponent path == "Python".toList && !(strHasSub path "Python.app")

/-- `RubyProcessType::is_framework`:
`path.ends_with("Ruby") && !path.contains("Ruby.app")`. -/
def rubyIsFramework (path : String) : Bool :=
  lastPathComponent path == "Ruby".toList && !(strHasSub path "Ruby.app")

/-- A sample main-binary symbol table (concrete witness data). -/
def binA : BinaryInfo :=
  { symbols := [("X", 1), ("onlybin", 7)], bss_addr := 0x5000, bss_size := 16 }

/-- A sample library symbol table (concrete witness data). -/
def libA : BinaryInfo :=
  { symbols := [("X", 2), ("onlylib", 9)], bss_addr := 0x6000, bss_size := 16 }

/-- A snapshot holding both a binary and a library (concrete witness data). -/
def procBoth : ProcessInfo :=
  { binary := some binA
    library := some libA
    maps := []
    path := "/usr/bin/python3.9"
    dockerized := false }

/-- C1: for every snapshot and name, `get_symbol` equals the
spec-side lookup (binary table first when present, then library table,
first match's address); in particular, with the name in both tables at
different addresses, the binary's address is returned. -/
theorem get_symbol_precedence :
    (∀ (p : ProcessInfo) (name : String), p.get_symbol name = getSymbolSpec p name) ∧
    (∀ (p : ProcessInfo) (name : String) (b l : BinaryInfo) (ab al : Nat),
      p.binary = some b → p.library = some l →
      symLookup b.symbols name = some ab → symLookup l.symbols name = some al →
      ab ≠ al → p.get_symbol name = some ab) := by
  constructor
  · intro p name
    unfold ProcessInfo.get_symbol getSymbolSpec
    cases hb : p.binary with
    | none => cases p.library <;> simp [Option.orElse]
    | some b =>
      cases hlook : symLookup b.symbols name <;> cases p.library <;> simp [Option.orElse, hlook]
  · intro p name b l ab al hb hl hab hal _
    unfold ProcessInfo.get_symbol
    rw [hb]
    simp only [hab]

/-- Witness for C1 at a concrete snapshot: "X" is at 1 in the binary
and at 2 in the library, and lookup returns 1. -/
theorem get_symbol_precedence_witness :
    procBoth.get_symbol "X" = getSymbolSpec procBoth "X" ∧ procBoth.get_symbol "X" = some 1 :=
  ⟨get_symbol_precedence.1 procBoth "X",
   get_symbol_precedence.2 procBoth "X" binA libA 1 2 rfl rfl (by decide) (by decide)
     (by decide)⟩

/-- C8: a name present in neither table yields `none`; `get_symbol` is
a total function into `Option Nat`, so no error is possible. -/
theorem get_symbol_absent (p : ProcessInfo) (name : String)
    (hb : ∀ b, p.binary = some b → symLookup b.symbols name = none)
    (hl : ∀ l, p.library = some l → symLookup l.symbols name = none) :
    p.get_symbol name = none := by
  unfold ProcessInfo.get_symbol
  cases hpb : p.binary with
  | none =>
    cases hpl : p.library with
    | none => simp
    | some l => simp [hl l hpl]
  | some b =>
    cases hpl : p.library with
    | none => simp [hb b hpb]
    | some l => simp [hb b hpb, hl l hpl]

/-- Witness for C8: the name "missing" is in neither table of the
concrete snapshot and lookup returns `none`. -/
theorem get_symbol_absent_witness : procBoth.get_symbol "missing" = none :=
  get_symbol_absent procBoth "missing"
    (fun b hb => by
      simp only [procBoth] at hb
      cases hb
      decide)
    (fun l hl => by
      simp only [procBoth] at hl
      cases hl
      decide)

/-- C9: any path containing the runtime's `.app` wrapper component is
not classified as a framework; the canonical in-framework binary paths
classify as frameworks while their app-bundle duplicates do not (the
concrete paths are those of the repository's unit tests). -/
theorem is_framework_classification :
    (∀ path : String, strHasSub path "Python.app" = true → pythonIsFramework path = false) ∧
    (∀ path : String, strHasSub path "Ruby.app" = true → rubyIsFramework path = false) ∧
    pythonIsFramework
      "/System/Library/Frameworks/Python.framework/Versions/2.7/Python" = true ∧
    pythonIsFramework
      "/System/Library/Frameworks/Python.framework/Versions/2.7/Resources/Python.app/Contents/MacOS/Python" = false ∧
    pythonIsFramework
      "/usr/local/Cellar/python@2/2.7.15_1/Frameworks/Python.framework/Versions/2.7/Python" = true ∧
    pythonIsFramework
      "/usr/local/Cellar/python@2/2.7.15_1/Frameworks/Python.framework/Versions/2.7/Resources/Python.app/Contents/MacOS/Python" = false ∧
    rubyIsFramework
      "/usr/local/Cellar/ruby@2/2.7.5_1/Frameworks/ruby.framework/Versions/2.7/Ruby" = true ∧
    rubyIsFramework
      "/usr/local/Cellar/ruby@2/2.7.5_1/Frameworks/ruby.framework/Versions/2.7/Resources/Ruby.app/Contents/MacOS/Ruby" = false := by
  refine ⟨?_, ?_, by decide, by decide, by decide, by decide, by decide, by decide⟩
  · intro path h
    unfold pythonIsFramework
    rw [h]
    simp
  · intro path h
    unfold rubyIsFramework
    rw [h]
    simp

/-- Witness for C9: the general `.app` conjunct applied to the pyenv
app-bundle duplicate path. -/
theorem is_framework_classification_witness :
    pythonIsFramework
      "/Users/ben/.pyenv/versions/3.6.6/Resources/Python.app/Contents/MacOS/Python" = false :=
  is_framework_classification.1
    "/Users/ben/.pyenv/versions/3.6.6/Resources/Python.app/Contents/MacOS/Python" (by decide)

/-- C7 (code bug): the crate's own Linux/FreeBSD Ruby tests assert that
these version-numbered sonames are Ruby libraries, but the compiled
pattern `/libruby\.so(\.\d+\.\d+(\.\d+)?)?` demands the literal text
`libruby.so` and rejects every one of them, while the `.so`-suffixed
names of the same convention on the Python side are accepted. -/
theorem ruby_linux_is_lib_rejects_versioned_sonames :
    rubyIsLibLinux "./libruby2.7.so" = false ∧
    rubyIsLibLinux "/usr/lib/libruby3.1.so" = false ∧
    rubyIsLibLinux "/usr/local/lib/libruby3.1.so" = false ∧
    rubyIsLibLinux "/usr/lib/libruby2.6.so" = false ∧
    rubyIsLibLinux "/usr/lib/libruby.so.3.1" = true ∧
    pythonIsLibLinux "/usr/lib/libpython3.4d.so" = true := by
  refine ⟨by decide, by decide, by decide, by decide, by decide, by decide⟩

/-- Wrapping subtraction coincides with plain subtraction when the
minuend is a `u64` value at least as large as the subtrahend. -/
theorem u64sub_eq_sub (a b : Nat) (hb : b ≤ a) (ha : a < U64MOD) : u64sub a b = a - b := by
  unfold u64sub
  have h1 : a + U64MOD - b = (a - b) + U64MOD := by omega
  rw [h1, Nat.add_mod_right]
  exact Nat.mod_eq_of_lt (by omega)

/-- A raw macOS main-binary parse whose BSS sentinel is `0` while the
anchor sits `0x100` past the region start (concrete counterexample data). -/
def pbC2 : BinaryInfo :=
  { symbols := [("_mh_execute_header", 0x1100), ("interp_head", 0x1200)]
    bss_addr := 0
    bss_size := 64 }

/-- Counterexample for C2 as stated: with the anchor at `A = 0x1100` in
a region starting at `S = 0x1000`, the offset `A - S = 0x100` is NOT
subtracted from the BSS address: the code leaves a zero `bss_addr`
untouched, while subtracting the offset in the `u64` arithmetic of the
field would give `2^64 - 0x100 ≠ 0`. -/
theorem macos_bss_counterexample :
    Option.map BinaryInfo.bss_addr (macosCorrect pbC2 0x1000) = some 0 ∧
    u64sub pbC2.bss_addr (u64sub 0x1100 0x1000) ≠ 0 ∧
    symLookup pbC2.symbols "_mh_execute_header" = some 0x1100 := by
  refine ⟨by decide, by decide, by decide⟩

/-- C2 (amended): on macOS, with the anchor symbol at address `A` in a
region starting at `S`, the correction subtracts `offset = A - S` from
every symbol address, and from the BSS address only when that address
is nonzero; every corrected symbol address equals `raw - (A - S)`. -/
theorem macos_offset_correction (pb : BinaryInfo) (S A : Nat) (pb' : BinaryInfo)
    (hanchor : symLookup pb.symbols "_mh_execute_header" = some A)
    (hSA : S ≤ A) (hA : A < U64MOD)
    (hsym : ∀ kv ∈ pb.symbols, A - S ≤ kv.2 ∧ kv.2 < U64MOD)
    (hbss : pb.bss_addr ≠ 0 → A - S ≤ pb.bss_addr ∧ pb.bss_addr < U64MOD)
    (hres : macosCorrect pb S = some pb') :
    pb'.symbols = pb.symbols.map (fun kv => (kv.1, kv.2 - (A - S))) ∧
    (pb.bss_addr = 0 → pb'.bss_addr = 0) ∧
    (pb.bss_addr ≠ 0 → pb'.bss_addr = pb.bss_addr - (A - S)) ∧
    pb'.bss_size = pb.bss_size := by
  unfold macosCorrect at hres
  rw [hanchor] at hres
  have hoff : u64sub A S = A - S := u64sub_eq_sub A S hSA hA
  simp only [Option.some.injEq] at hres
  subst hres
  refine ⟨?_, ?_, ?_, rfl⟩
  · apply List.map_congr_left
    intro kv hkv
    have hk := hsym kv hkv
    simp only [hoff]
    rw [u64sub_eq_sub kv.2 (A - S) hk.1 hk.2]
  · intro h0
    simp [h0]
  · intro h0
    have hb := hbss h0
    simp only [h0, if_pos, hoff]
    rw [if_pos h0]
    exact u64sub_eq_sub pb.bss_addr (A - S) hb.1 hb.2

/-- Concrete raw macOS parse for the amended-C2 witness. -/
def pbM : BinaryInfo :=
  { symbols := [("_mh_execute_header", 0x100001000), ("_PyRuntime", 0x100005000)]
    bss_addr := 0x100006000
    bss_size := 32 }

/-- The corrected form of `pbM` for a region starting at `0x100000000`. -/
def pbMcorr : BinaryInfo :=
  { symbols := [("_mh_execute_header", 0x100000000), ("_PyRuntime", 0x100004000)]
    bss_addr := 0x100005000
    bss_size := 32 }

/-- Witness for the amended C2 at `S = 0x100000000`, `A = 0x100001000`,
`offset = 0x1000`. -/
theorem macos_offset_correction_witness :
    pbMcorr.symbols = pbM.symbols.map (fun kv => (kv.1, kv.2 - (0x100001000 - 0x100000000))) ∧
    (pbM.bss_addr = 0 → pbMcorr.bss_addr = 0) ∧
    (pbM.bss_addr ≠ 0 → pbMcorr.bss_addr = pbM.bss_addr - (0x100001000 - 0x100000000)) ∧
    pbMcorr.bss_size = pbM.bss_size :=
  macos_offset_correction pbM 0x100000000 0x100001000 pbMcorr (by decide) (by decide)
    (by decide) (by decide) (by decide) (by decide)

/-- C10: the macOS correction's result is defined (no anchor-index
panic) exactly when the parsed table contains `_mh_execute_header`, and
on success the BSS address is adjusted only when it is nonzero - a zero
BSS address (the missing-BSS sentinel) passes through unchanged. -/
theorem macos_correction_totality :
    (∀ (pb : BinaryInfo) (s : Nat),
      (macosCorrect pb s).isSome = (symLookup pb.symbols "_mh_execute_header").isSome) ∧
    (∀ (pb : BinaryInfo) (s : Nat) (pb' : BinaryInfo),
      macosCorrect pb s = some pb' →
      (pb.bss_addr = 0 → pb'.bss_addr = 0) ∧
      (∀ A, symLookup pb.symbols "_mh_execute_header" = some A → pb.bss_addr ≠ 0 →
        pb'.bss_addr = u64sub pb.bss_addr (u64sub A s))) := by
  constructor
  · intro pb s
    unfold macosCorrect
    cases h : symLookup pb.symbols "_mh_execute_header" <;> simp
  · intro pb s pb' h
    unfold macosCorrect at h
    cases hanchor : symLookup pb.symbols "_mh_execute_header" with
    | none => rw [hanchor] at h; exact absurd h (by simp)
    | some A =>
      rw [hanchor] at h
      simp only [Option.some.injEq] at h
      subst h
      refine ⟨fun h0 => by simp [h0], ?_⟩
      intro A2 hA2 h0
      simp only [Option.some.injEq] at hA2
      subst hA2
      simp [h0]

/-- The corrected form of `pbC2` (offset `0x100`, zero BSS untouched). -/
def pbC2corr : BinaryInfo :=
  { symbols := [("_mh_execute_header", 0x1000), ("interp_head", 0x1100)]
    bss_addr := 0
    bss_size := 64 }

/-- Witness for C10 at the concrete `pbC2` table: the correction is
defined (the anchor is present) and the zero BSS address is preserved. -/
theorem macos_correction_totality_witness :
    (macosCorrect pbC2 0x1000).isSome =
      (symLookup pbC2.symbols "_mh_execute_header").isSome ∧
    pbC2corr.bss_addr = 0 :=
  ⟨macos_correction_totality.1 pbC2 0x1000,
   (macos_correction_totality.2 pbC2 0x1000 pbC2corr (by decide)).1 (by decide)⟩

/-- Subtract-then-add and add-then-subtract agree in wrapping `u64`
arithmetic: `(offset + addr) - r = (addr - r) + offset (mod 2^64)`. -/
theorem u64_sub_add_comm (offset addr r : Nat) (hr : r ≤ U64MOD) :
    u64sub (u64add offset addr) r = u64add (u64sub addr r) offset := by
  unfold u64sub u64add
  have e1 : (offset + addr) % U64MOD + U64MOD - r = (offset + addr) % U64MOD + (U64MOD - r) := by
    omega
  have e2 : addr + U64MOD - r = addr + (U64MOD - r) := by omega
  rw [e1, e2, Nat.mod_add_mod, Nat.mod_add_mod]
  congr 1
  omega

/-- The fold of `get_windows_symbols` records, for every required
symbol the secondary source resolves, exactly the `resolveWinAddr`
value (later inserts shadow earlier ones with the same, deterministic,
value). -/
theorem getWindowsSymbols_aux (resolve : String → Option (Nat × Nat))
    (moduleBase offset : Nat) (s : String) (base addr : Nat)
    (hr : resolve s = some (base, addr)) :
    ∀ (syms : List String) (acc : List (String × Nat)),
      (s ∈ syms ∨ symLookup acc s = some (resolveWinAddr offset moduleBase base addr)) →
      symLookup (syms.foldl (winStep resolve moduleBase offset) acc) s =
        some (resolveWinAddr offset moduleBase base addr) := by
  intro syms
  induction syms with
  | nil =>
    intro acc h
    cases h with
    | inl h => cases h
    | inr h => exact h
  | cons t ts ih =>
    intro acc h
    simp only [List.foldl_cons]
    by_cases hmem : s ∈ ts
    · exact ih _ (Or.inl hmem)
    · refine ih _ (Or.inr ?_)
      cases h with
      | inl h =>
        cases h with
        | head =>
          unfold winStep
          rw [hr]
          simp [symLookup]
        | tail _ h => exact absurd h hmem
      | inr h =>
        unfold winStep
        cases hrt : resolve t with
        | none => exact h
        | some p =>
          obtain ⟨tb, ta⟩ := p
          by_cases hst : t == s
          · have : t = s := by simpa using hst
            subst this
            rw [hrt] at hr
            simp only [Option.some.injEq, Prod.mk.injEq] at hr
            simp [symLookup, hr.1, hr.2]
          · simp [symLookup, hst, h]

/-- C6: on Windows, the address merged for a required symbol equals
`(reported_offset - reference_base) + region_load_address` in `u64`
arithmetic, with `reference_base` the reported base when nonzero and
the module's own base otherwise; any resolved required symbol is
present in the merged table at exactly that address; and in the
concrete scenario (`base = 0`, `address = 0x1000`, module base `0`,
region loaded at `0x7f0000000000`) the resolved address is
`0x7f0000001000`. -/
theorem windows_symbol_resolution :
    (∀ offset moduleBase base addr : Nat,
      moduleBase < U64MOD → base < U64MOD →
      resolveWinAddr offset moduleBase base addr =
        u64add (u64sub addr (if base == 0 then moduleBase else base)) offset) ∧
    (∀ (syms : List String) (resolve : String → Option (Nat × Nat))
        (moduleBase offset : Nat) (s : String) (base addr : Nat),
      s ∈ syms → resolve s = some (base, addr) →
      symLookup (getWindowsSymbols syms resolve moduleBase offset) s =
        some (resolveWinAddr offset moduleBase base addr)) ∧
    resolveWinAddr 0x7f0000000000 0 0 0x1000 = 0x7f0000001000 := by
  refine ⟨?_, ?_, by decide⟩
  · intro offset moduleBase base addr hm hb
    unfold resolveWinAddr
    by_cases h0 : base == 0
    · rw [if_pos h0, if_pos h0]
      exact u64_sub_add_comm offset addr moduleBase (Nat.le_of_lt hm)
    · rw [if_neg h0, if_neg h0]
      exact u64_sub_add_comm offset addr base (Nat.le_of_lt hb)
  · intro syms resolve moduleBase offset s base addr hs hr
    exact getWindowsSymbols_aux resolve moduleBase offset s base addr hr syms [] (Or.inl hs)

/-- Witness for C6: the Python required-symbol list with a source that
reports `base = 0, address = 0x1000` for `_PyRuntime` and module base
`0`, for a region loaded at `0x7f0000000000`. -/
theorem windows_symbol_resolution_witness :
    symLookup
      (getWindowsSymbols pythonWindowsSymbols
        (fun s => if s == "_PyRuntime" then some (0, 0x1000) else none) 0 0x7f0000000000)
      "_PyRuntime" = some (resolveWinAddr 0x7f0000000000 0 0 0x1000) :=
  windows_symbol_resolution.2.1 pythonWindowsSymbols
    (fun s => if s == "_PyRuntime" then some (0, 0x1000) else none)
    0 0x7f0000000000 "_PyRuntime" 0 0x1000 (by decide) (by decide)

/-- The binary-region predicate holds exactly for an executable region
whose backing file satisfies the comparator. -/
theorem binMapPred_iff (isBin : String → Bool) (m : MapRange) :
    binMapPred isBin m = true ↔
      (m.is_exec = true ∧ ∃ p, m.filename = some p ∧ isBin p = true) := by
  unfold binMapPred
  cases hf : m.filename with
  | none => simp
  | some p =>
    simp only [Bool.and_eq_true, Option.some.injEq]
    constructor
    · rintro ⟨h1, h2⟩
      exact ⟨h2, p, rfl, h1⟩
    · rintro ⟨h2, q, hq, h1⟩
      cases hq
      exact ⟨h1, h2⟩

/-- On a nonempty map list, binary-region selection always succeeds. -/
theorem selectBinaryMap_nonempty (m0 : MapRange) (rest : List MapRange)
    (isBin : String → Bool) :
    ∃ m, selectBinaryMap (m0 :: rest) isBin = Except.ok m := by
  unfold selectBinaryMap
  cases h : findBinaryMap (m0 :: rest) isBin with
  | none => exact ⟨m0, rfl⟩
  | some m => exact ⟨m, rfl⟩

/-- With no library region and a silent dyld fallback, library
resolution reports no library. -/
theorem resolveLibrary_none (maps : List MapRange)
    (parse : String → Nat → Nat → Bool → Except Unit BinaryInfo)
    (isLibP : String → Bool) (useRead : Bool)
    (h : findLibraryMap maps isLibP useRead = none) :
    resolveLibrary maps parse isLibP useRead (Except.ok none) = Except.ok none := by
  unfold resolveLibrary
  rw [h]

/-- With a library region whose parse succeeds, library resolution
returns that parse. -/
theorem resolveLibrary_some (maps : List MapRange)
    (parse : String → Nat → Nat → Bool → Except Unit BinaryInfo)
    (isLibP : String → Bool) (useRead : Bool)
    (dyld : Except Unit (Option BinaryInfo)) (m : MapRange) (fpath : String)
    (l : BinaryInfo)
    (hfind : findLibraryMap maps isLibP useRead = some m)
    (hf : m.filename = some fpath)
    (hparse : parse fpath m.start m.size false = Except.ok l) :
    resolveLibrary maps parse isLibP useRead dyld = Except.ok (some l) := by
  simp [resolveLibrary, hfind, hf, hparse]

/-- A successful reconciliation yields a binary, or there was a library. -/
theorem reconcileBinary_ok (r : Except Unit BinaryInfo) (l : Option BinaryInfo)
    (b : Option BinaryInfo) (h : reconcileBinary r l = Except.ok b) :
    b.isSome = true ∨ l.isSome = true := by
  unfold reconcileBinary at h
  cases l with
  | some x => exact Or.inr rfl
  | none =>
    cases r with
    | error e => simp at h
    | ok x =>
      simp only [Except.ok.injEq] at h
      subst h
      exact Or.inl rfl

/-- C3: the selected main-binary region is one whose backing file
satisfies the `is_bin` comparison against the resolved executable path
(plain equality, lower-cased on Windows) with the execute bit set; when
no region matches, the first region is selected without failing; with
zero regions, selection - and hence construction - fails with the
no-memory-regions error. -/
theorem binary_region_selection :
    (∀ (wn : Bool) (f p : String),
      mkIsBin wn f p = true ↔ (if wn then p.toLower else p) = f) ∧
    (∀ (maps : List MapRange) (isBin : String → Bool) (m : MapRange),
      findBinaryMap maps isBin = some m →
      selectBinaryMap maps isBin = Except.ok m ∧ m.is_exec = true ∧
      ∃ p, m.filename = some p ∧ isBin p = true) ∧
    (∀ (maps : List MapRange) (isBin : String → Bool),
      findBinaryMap maps isBin = none ↔
        ∀ m ∈ maps, ¬ (m.is_exec = true ∧ ∃ p, m.filename = some p ∧ isBin p = true)) ∧
    (∀ (isBin : String → Bool) (m0 : MapRange) (rest : List MapRange),
      findBinaryMap (m0 :: rest) isBin = none →
      selectBinaryMap (m0 :: rest) isBin = Except.ok m0) ∧
    (∀ isBin : String → Bool,
      selectBinaryMap [] isBin = Except.error ProcError.noMemoryRegions) ∧
    (∀ (f : String) (parse : String → Nat → Nat → Bool → Except Unit BinaryInfo)
        (isLibP : String → Bool) (useRead : Bool)
        (dyld : Except Unit (Option BinaryInfo)) (dk : Option Bool) (wn : Bool),
      processInfoNew (some f) [] parse isLibP useRead dyld dk wn =
        Except.error ProcError.noMemoryRegions) := by
  refine ⟨?_, ?_, ?_, ?_, ?_, ?_⟩
  · intro wn f p
    unfold mkIsBin
    cases wn <;> simp
  · intro maps isBin m h
    have hp := List.find?_some h
    rw [binMapPred_iff] at hp
    exact ⟨by unfold selectBinaryMap; rw [h], hp.1, hp.2⟩
  · intro maps isBin
    unfold findBinaryMap
    rw [List.find?_eq_none]
    constructor
    · intro h m hm
      rw [← binMapPred_iff isBin m]
      simpa using h m hm
    · intro h m hm
      intro hc
      exact h m hm ((binMapPred_iff isBin m).1 hc)
  · intro isBin m0 rest h
    unfold selectBinaryMap
    rw [h]
  · intro isBin
    rfl
  · intro f parse isLibP useRead dyld dk wn
    unfold processInfoNew
    rfl

/-- A region list and comparator for the C3 witness: the second region
backs the executable. -/
def mapOther : MapRange :=
  { start := 0x200000, size := 0x1000, is_read := true, is_write := false,
    is_exec := true, filename := some "/usr/lib/ld.so" }

/-- The executable-backed region used across the witnesses. -/
def mapExe : MapRange :=
  { start := 0x400000, size := 0x1000, is_read := true, is_write := false,
    is_exec := true, filename := some "/usr/bin/python3.9" }

/-- Witness for C3 at a concrete map list: the region backed by
`/usr/bin/python3.9` is selected for that executable path. -/
theorem binary_region_selection_witness :
    selectBinaryMap [mapOther, mapExe] (mkIsBin false "/usr/bin/python3.9") =
      Except.ok mapExe ∧
    mapExe.is_exec = true ∧
    ∃ p, mapExe.filename = some p ∧ mkIsBin false "/usr/bin/python3.9" p = true :=
  binary_region_selection.2.1 [mapOther, mapExe] (mkIsBin false "/usr/bin/python3.9")
    mapExe (by decide)

/-- Unfolding of `processInfoNew` when the executable path resolves. -/
theorem processInfoNew_some (f : String) (maps : List MapRange)
    (parse : String → Nat → Nat → Bool → Except Unit BinaryInfo)
    (isLibP : String → Bool) (useRead : Bool)
    (dyld : Except Unit (Option BinaryInfo)) (dk : Option Bool) (wn : Bool) :
    processInfoNew (some f) maps parse isLibP useRead dyld dk wn =
      match selectBinaryMap maps (mkIsBin wn (if wn then f.toLower else f)) with
      | Except.error e => Except.error e
      | Except.ok bmap =>
        match resolveLibrary maps parse isLibP useRead dyld with
        | Except.error e => Except.error e
        | Except.ok library =>
          match reconcileBinary
              (parse (if wn then f.toLower else f) bmap.start bmap.size true) library with
          | Except.error e => Except.error e
          | Except.ok binary =>
            Except.ok
              { binary := binary
                library := library
                maps := maps
                path := if wn then f.toLower else f
                dockerized := dk.getD false } := rfl

/-- C4: in reconciliation, a main-binary parse failure is fatal exactly
when no library was resolved (construction then fails with the
main-binary parse error); when a library was resolved, the failure is
tolerated and the binary field is absent in the returned snapshot. -/
theorem reconciliation_policy :
    (∀ e : Unit,
      reconcileBinary (Except.error e) none =
        Except.error ProcError.mainBinaryParseFailure) ∧
    (∀ (e : Unit) (l : BinaryInfo),
      reconcileBinary (Except.error e) (some l) = Except.ok none) ∧
    (∀ (b : BinaryInfo) (l : Option BinaryInfo),
      reconcileBinary (Except.ok b) l = Except.ok (some b)) ∧
    (∀ (exe : String) (m0 : MapRange) (rest : List MapRange)
        (parse : String → Nat → Nat → Bool → Except Unit BinaryInfo)
        (isLibP : String → Bool) (useRead : Bool) (dk : Option Bool) (wn : Bool),
      findLibraryMap (m0 :: rest) isLibP useRead = none →
      (∀ fname st sz, parse fname st sz true = Except.error ()) →
      processInfoNew (some exe) (m0 :: rest) parse isLibP useRead (Except.ok none) dk wn =
        Except.error ProcError.mainBinaryParseFailure) ∧
    (∀ (exe : String) (maps : List MapRange)
        (parse : String → Nat → Nat → Bool → Except Unit BinaryInfo)
        (isLibP : String → Bool) (useRead : Bool)
        (dyld : Except Unit (Option BinaryInfo)) (dk : Option Bool) (wn : Bool)
        (m : MapRange) (fpath : String) (l : BinaryInfo),
      findLibraryMap maps isLibP useRead = some m →
      m.filename = some fpath →
      parse fpath m.start m.size false = Except.ok l →
      (∀ fname st sz, parse fname st sz true = Except.error ()) →
      ∃ p, processInfoNew (some exe) maps parse isLibP useRead dyld dk wn = Except.ok p ∧
        p.binary = none ∧ p.library = some l) := by
  refine ⟨fun e => rfl, fun e l => rfl, ?_, ?_, ?_⟩
  · intro b l
    cases l <;> rfl
  · intro exe m0 rest parse isLibP useRead dk wn hfind hp
    obtain ⟨bmap, hsel⟩ :=
      selectBinaryMap_nonempty m0 rest (mkIsBin wn (if wn then exe.toLower else exe))
    have hlib := resolveLibrary_none (m0 :: rest) parse isLibP useRead hfind
    have hb := hp (if wn then exe.toLower else exe) bmap.start bmap.size
    simp only [processInfoNew_some, hsel, hlib, hb, reconcileBinary]
  · intro exe maps parse isLibP useRead dyld dk wn m fpath l hfind hf hparse hp
    obtain ⟨m0, rest, rfl⟩ : ∃ m0 rest, maps = m0 :: rest := by
      cases maps with
      | nil => simp [findLibraryMap] at hfind
      | cons m0 rest => exact ⟨m0, rest, rfl⟩
    obtain ⟨bmap, hsel⟩ :=
      selectBinaryMap_nonempty m0 rest (mkIsBin wn (if wn then exe.toLower else exe))
    have hlib :=
      resolveLibrary_some (m0 :: rest) parse isLibP useRead dyld m fpath l hfind hf hparse
    have hb := hp (if wn then exe.toLower else exe) bmap.start bmap.size
    refine ⟨{ binary := none
              library := some l
              maps := m0 :: rest
              path := if wn then exe.toLower else exe
              dockerized := dk.getD false }, ?_, rfl, rfl⟩
    simp only [processInfoNew_some, hsel, hlib, hb, reconcileBinary, Except.toOption]

/-- A library-backed region (concrete witness data). -/
def mapLib : MapRange :=
  { start := 0x7f0000000000, size := 0x2000, is_read := true, is_write := false,
    is_exec := true, filename := some "/usr/lib/libpython3.9.so.1.0" }

/-- A parse oracle that fails on the main binary and yields `libA` for
the library (concrete witness data). -/
def parseBinFails : String → Nat → Nat → Bool → Except Unit BinaryInfo :=
  fun _ _ _ isMain => if isMain then Except.error () else Except.ok libA

/-- Witness for C4: with a resolvable library and a failing main-binary
parse, construction succeeds with an absent binary field. -/
theorem reconciliation_policy_witness :
    ∃ p, processInfoNew (some "/usr/bin/python3.9") [mapExe, mapLib] parseBinFails
        pythonIsLibLinux false (Except.ok none) (some false) false = Except.ok p ∧
      p.binary = none ∧ p.library = some libA :=
  reconciliation_policy.2.2.2.2 "/usr/bin/python3.9" [mapExe, mapLib] parseBinFails
    pythonIsLibLinux false (Except.ok none) (some false) false mapLib
    "/usr/lib/libpython3.9.so.1.0" libA (by decide) (by decide) rfl (fun _ _ _ => rfl)

/-- C5: every snapshot returned by a successful construction has the
binary present or the library present (both absent is impossible). -/
theorem construction_invariant (exeResult : Option String) (maps : List MapRange)
    (parse : String → Nat → Nat → Bool → Except Unit BinaryInfo)
    (isLibP : String → Bool) (useRead : Bool)
    (dyld : Except Unit (Option BinaryInfo)) (dk : Option Bool) (wn : Bool)
    (p : ProcessInfo)
    (h : processInfoNew exeResult maps parse isLibP useRead dyld dk wn = Except.ok p) :
    p.binary.isSome = true ∨ p.library.isSome = true := by
  cases exeResult with
  | none => exact absurd h (by simp [processInfoNew])
  | some f =>
    rw [processInfoNew_some] at h
    split at h
    · exact absurd h (by simp)
    · split at h
      · exact absurd h (by simp)
      · split at h
        · exact absurd h (by simp)
        · rename_i library hlib binary hrec
          simp only [Except.ok.injEq] at h
          subst h
          exact reconcileBinary_ok _ _ _ hrec

/-- A parse oracle that always succeeds with `binA`. -/
def parseOkBin : String → Nat → Nat → Bool → Except Unit BinaryInfo :=
  fun _ _ _ _ => Except.ok binA

/-- The snapshot produced in the C5 witness run. -/
def procC5 : ProcessInfo :=
  { binary := some binA
    library := none
    maps := [mapExe]
    path := "/usr/bin/python3.9"
    dockerized := false }

/-- Witness for C5: a concrete successful construction whose snapshot
has the binary present. -/
theorem construction_invariant_witness :
    procC5.binary.isSome = true ∨ procC5.library.isSome = true :=
  construction_invariant (some "/usr/bin/python3.9") [mapExe] parseOkBin
    pythonIsLibLinux false (Except.ok none) (some false) false procC5 rfl
